import Mathlib

set_option maxHeartbeats 1000000

namespace LocalGemini

/-- Role of a chat message, from src/lib/models/types.ts. -/
inductive Role where
  | user
  | assistant
  deriving DecidableEq

/-- One conversation turn (interface ChatMessage in types.ts). Timestamps
are modelled as natural numbers of milliseconds. -/
structure ChatMessage where
  id : String
  role : Role
  content : String
  createdAt : Nat
  deriving DecidableEq

/-- A persisted conversation (interface ChatSession in types.ts). -/
structure ChatSession where
  id : String
  title : String
  messages : List ChatMessage
  model : String
  createdAt : Nat
  updatedAt : Nat
  deriving DecidableEq

/-- The private fields of class ChatController (chatController.ts).
The abortController field is modelled as an optional Bool: none when the
field is null, some b when an AbortController exists whose signal reads
aborted = b. -/
structure ControllerState where
  messages : List ChatMessage
  model : String
  generating : Bool
  abortSignal : Option Bool
  sessionId : String
  sessionTitle : String
  deriving DecidableEq

/-- One observer invocation: the arguments of an onChange call. -/
abbrev ObserverCall := List ChatMessage × Bool

/-- One event at an await point of the delta-consumption loop of
streamGenerate (genai.ts): either a chunk arrives from the transport
(chunk.text possibly undefined, modelled as none), or the caller invokes
ChatController.stop during the await, firing the abort signal. -/
inductive StreamEvent where
  | chunk (text : Option String)
  | stopCall
  deriving DecidableEq

/-- How the transport terminates once the loop has consumed every
delivered chunk without breaking out: normal completion, or a raised
transport error. -/
inductive StreamEnd where
  | success
  | error
  deriving DecidableEq

/-- Model of the JS String.prototype.trim used by the source: drop
whitespace characters from both ends.  Implemented over the character
list so that it evaluates by kernel reduction. -/
def jsTrim (s : String) : String :=
  ⟨((s.data.dropWhile Char.isWhitespace).reverse.dropWhile Char.isWhitespace).reverse⟩

/-- Model of the JS String.prototype.substring(0, n) used by the source:
the first n characters. -/
def jsTake (s : String) (n : Nat) : String :=
  ⟨s.data.take n⟩

/-- Model of the JS String.prototype.startsWith used by the source. -/
def jsStartsWith (s p : String) : Bool :=
  p.data.isPrefixOf s.data

/-- ChatController.stop (chatController.ts lines 148 to 152): if an abort
controller exists and its signal has not yet fired, abort it; otherwise do
nothing.  The method takes no observer and touches no other field. -/
def ChatController.stop (s : ControllerState) : ControllerState :=
  if s.abortSignal = some false then { s with abortSignal := some true } else s

/-- The value of signal.aborted as read inside the streaming loop. -/
def signalAborted (s : ControllerState) : Bool :=
  s.abortSignal.getD false

/-- First half of the onText callback (chatController.ts line 69):
assistantMsg.content += delta. -/
def appendDelta (aMsg : ChatMessage) (delta : String) : ChatMessage :=
  { aMsg with content := aMsg.content ++ delta }

/-- Second half of the onText callback (chatController.ts lines 70 to 72):
this.messages is rebuilt, replacing each element whose id equals
assistantMsg.id with the updated assistant message object. -/
def updateMessages (msgs : List ChatMessage) (aMsg : ChatMessage) : List ChatMessage :=
  msgs.map (fun m => if m.id = aMsg.id then aMsg else m)

/-- Result of running the modelled streaming loop: the assistant message
object, the controller state, the observer calls made by onText in order,
and whether the loop exited via break. -/
structure LoopResult where
  aMsg : ChatMessage
  state : ControllerState
  calls : List ObserverCall
  broke : Bool
  deriving DecidableEq

/-- The for-await loop of streamGenerate (genai.ts lines 55 to 59),
run over a modelled schedule of events, together with the controller
mutations performed by the onText callback it invokes.  For each chunk:
if chunk.text is present and non-empty, onText appends it to the
assistant message, rebuilds the message list and notifies the observer
with the current generating flag; afterwards the loop reads
signal.aborted and breaks when it is set.  A stopCall event models the
user invoking ChatController.stop during the await between chunks. -/
def streamLoop : ChatMessage → ControllerState → List StreamEvent → LoopResult
  | aMsg, s, [] => ⟨aMsg, s, [], false⟩
  | aMsg, s, StreamEvent.stopCall :: rest => streamLoop aMsg (ChatController.stop s) rest
  | aMsg, s, StreamEvent.chunk none :: rest =>
    if signalAborted s then ⟨aMsg, s, [], true⟩
    else streamLoop aMsg s rest
  | aMsg, s, StreamEvent.chunk (some t) :: rest =>
    if t = "" then
      (if signalAborted s then ⟨aMsg, s, [], true⟩ else streamLoop aMsg s rest)
    else
      let a := appendDelta aMsg t
      let s1 : ControllerState := { s with messages := updateMessages s.messages a }
      if signalAborted s then ⟨a, s1, [(s1.messages, s1.generating)], true⟩
      else
        let r := streamLoop a s1 rest
        ⟨r.aMsg, r.state, (s1.messages, s1.generating) :: r.calls, r.broke⟩

/-- Result of one controller operation: the final state, every observer
call made in order, the message list handed to streamGenerate (none when
no streaming call was opened), and whether the catch branch of
generateResponse ran. -/
structure OpResult where
  state : ControllerState
  calls : List ObserverCall
  sent : Option (List ChatMessage)
  caughtError : Bool
  deriving DecidableEq

/-- An operation that returns without doing anything. -/
def noOp (s : ControllerState) : OpResult :=
  { state := s, calls := [], sent := none, caughtError := false }

/-- ChatController.generateResponse (chatController.ts lines 42 to 83):
append an empty assistant placeholder, set generating, notify the
observer, create a fresh abort controller, run the streaming call on
every message except the placeholder, catch any transport error, and in
the finally block clear generating and the abort controller and notify
the observer one final time.  assistantId and now stand for the uid()
and Date.now() calls; events is the schedule of chunk deliveries and
stop invocations; endKind tells whether the transport would complete or
raise once the schedule is exhausted (a break abandons the stream, so no
error is raised after a break). -/
def ChatController.generateResponse (assistantId : String) (now : Nat)
    (events : List StreamEvent) (endKind : StreamEnd)
    (s : ControllerState) : OpResult :=
  let aMsg : ChatMessage :=
    { id := assistantId, role := Role.assistant, content := "", createdAt := now }
  let s1 : ControllerState := { s with messages := s.messages ++ [aMsg], generating := true }
  let s2 : ControllerState := { s1 with abortSignal := some false }
  let r := streamLoop aMsg s2 events
  let s4 : ControllerState := { r.state with generating := false, abortSignal := none }
  { state := s4
    calls := (s1.messages, true) :: (r.calls ++ [(s4.messages, false)])
    sent := some s2.messages.dropLast
    caughtError := !r.broke && (match endKind with
      | StreamEnd.error => true
      | StreamEnd.success => false) }

/-- ChatController.send (chatController.ts lines 85 to 103): return if the
text trims to empty or the controller is generating; otherwise append a
user message and run the generate procedure.  userId and nowU stand for
the uid() and Date.now() calls of send, assistantId and nowA for those of
generateResponse. -/
def ChatController.send (userId assistantId : String) (nowU nowA : Nat)
    (userText : String) (events : List StreamEvent) (endKind : StreamEnd)
    (s : ControllerState) : OpResult :=
  if jsTrim userText = "" then noOp s
  else if s.generating then noOp s
  else
    ChatController.generateResponse assistantId nowA events endKind
      { s with messages := s.messages ++
          [{ id := userId, role := Role.user, content := userText, createdAt := nowU }] }

/-- ChatController.editMessage (chatController.ts lines 105 to 127):
return if generating; look the message up by id, return if absent or not
a user message; otherwise replace its content, truncate the list to end
at it, and run the generate procedure. -/
def ChatController.editMessage (messageId newContent assistantId : String)
    (now : Nat) (events : List StreamEvent) (endKind : StreamEnd)
    (s : ControllerState) : OpResult :=
  if s.generating then noOp s
  else
    match s.messages.findIdx? (fun m => m.id == messageId) with
    | none => noOp s
    | some index =>
      match s.messages.get? index with
      | none => noOp s
      | some msg =>
        if msg.role = Role.user then
          ChatController.generateResponse assistantId now events endKind
            { s with messages :=
                (s.messages.set index { msg with content := newContent }).take (index + 1) }
        else noOp s

/-- ChatController.regenerate (chatController.ts lines 129 to 146):
return if generating or the list is empty; drop a trailing assistant
message; run the generate procedure if any message remains. -/
def ChatController.regenerate (assistantId : String) (now : Nat)
    (events : List StreamEvent) (endKind : StreamEnd)
    (s : ControllerState) : OpResult :=
  if s.generating then noOp s
  else if s.messages.isEmpty then noOp s
  else
    let msgs :=
      match s.messages.getLast? with
      | some lastMsg =>
        if lastMsg.role = Role.assistant then s.messages.dropLast else s.messages
      | none => s.messages
    if msgs.length > 0 then
      ChatController.generateResponse assistantId now events endKind { s with messages := msgs }
    else
      { state := { s with messages := msgs }, calls := [], sent := none, caughtError := false }

/-- ChatController.clear (chatController.ts lines 37 to 40). -/
def ChatController.clear (s : ControllerState) : ControllerState :=
  if s.generating then s else { s with messages := [] }

/-- ChatController.isBusy (chatController.ts lines 29 to 31). -/
def ChatController.isBusy (s : ControllerState) : Bool :=
  s.generating

/-- ChatController.exportSession (chatController.ts lines 166 to 175):
now stands for the two Date.now() reads of the export call. -/
def ChatController.exportSession (now : Nat) (s : ControllerState) : ChatSession :=
  { id := s.sessionId
    title := s.sessionTitle
    messages := s.messages
    model := s.model
    createdAt := match s.messages with
      | [] => now
      | m :: _ => m.createdAt
    updatedAt := now }

/-- The createdAt rule the spec states for exportSession: timestamp of
the first message, or session-creation time if the list is empty.  The
controller stores no session-creation time, so it is an explicit
argument here; this definition follows the spec wording and exists only
to be compared with ChatController.exportSession. -/
def exportSessionSpecCreatedAt (sessionCreatedAt : Nat) (s : ControllerState) : Nat :=
  match s.messages with
  | [] => sessionCreatedAt
  | m :: _ => m.createdAt

/-- ChatController.loadSession (chatController.ts lines 177 to 184). -/
def ChatController.loadSession (session : ChatSession) (s : ControllerState) : ControllerState :=
  if s.generating then s
  else { s with sessionId := session.id, sessionTitle := session.title,
                messages := session.messages, model := session.model }

/-- ChatController.createNewSession (chatController.ts lines 186 to 192);
newId stands for the uid() call. -/
def ChatController.createNewSession (newId : String) (s : ControllerState) : ControllerState :=
  if s.generating then s
  else { s with sessionId := newId, sessionTitle := "New Chat", messages := [] }

/-- generateTitle (chatHistory.ts lines 5 to 11). -/
def generateTitle (firstMessage : String) : String :=
  let cleaned := jsTrim firstMessage
  if cleaned.length ≤ 50 then cleaned
  else jsTake cleaned 50 ++ "..."

/-- DEFAULT_MODELS (modelStorage.ts lines 3 to 6). -/
def DEFAULT_MODELS : List String :=
  ["models/gemini-flash-latest", "models/gemini-pro-latest"]

/-- addCustomModel (modelStorage.ts lines 26 to 32); the stored custom
list is passed and returned explicitly in place of localStorage. -/
def addCustomModel (model : String) (models : List String) : List String :=
  if !(models.contains model) && !(DEFAULT_MODELS.contains model) then
    models ++ [model]
  else models

/-- handleAddModel (SetupScreen.svelte lines 244 to 273): the
add-custom-model operation as reachable from the UI.  customModels
mirrors the stored list; returns the stored list after the operation and
the modelError message, none on success. -/
def handleAddModel (newModelInput : String) (customModels : List String) :
    List String × Option String :=
  let model := jsTrim newModelInput
  if model = "" then
    (customModels, some "Please enter a model name")
  else if !(jsStartsWith model "models/") then
    (customModels, some "Model name should start with \"models/\"")
  else if DEFAULT_MODELS.contains model then
    (customModels, some "This is already a default model")
  else if customModels.contains model then
    (customModels, some "This model is already added")
  else
    (addCustomModel model customModels, none)

/-- Concatenation, in delivery order, of the delta fragments carried by a
schedule of stream events. -/
def concatDeltas : List StreamEvent → String
  | [] => ""
  | StreamEvent.chunk (some t) :: rest => t ++ concatDeltas rest
  | StreamEvent.chunk none :: rest => concatDeltas rest
  | StreamEvent.stopCall :: rest => concatDeltas rest

/-- The text of the first chunk of a schedule: what the loop still
appends after the abort signal has fired; empty when there is no chunk
or its text is undefined. -/
def firstChunkText : List StreamEvent → String
  | [] => ""
  | StreamEvent.chunk (some t) :: _ => t
  | StreamEvent.chunk none :: _ => ""
  | StreamEvent.stopCall :: rest => firstChunkText rest

/-- Number of events that would trigger an onText notification: chunks
whose text is present and non-empty. -/
def nonemptyChunks : List StreamEvent → Nat
  | [] => 0
  | StreamEvent.chunk (some t) :: rest =>
    (if t = "" then 0 else 1) + nonemptyChunks rest
  | StreamEvent.chunk none :: rest => nonemptyChunks rest
  | StreamEvent.stopCall :: rest => nonemptyChunks rest

/-- A fresh, never-used controller state, as built by the constructor
(chatController.ts lines 19 to 23). -/
def freshState (sessionId : String) : ControllerState :=
  { messages := [], model := "gemini-2.5-flash", generating := false,
    abortSignal := none, sessionId := sessionId, sessionTitle := "New Chat" }

/-- A controller state with a generation in flight. -/
def busyState : ControllerState :=
  { messages := [], model := "gemini-2.5-flash", generating := true,
    abortSignal := some false, sessionId := "b0", sessionTitle := "New Chat" }

/-- A controller state holding one user turn and one assistant turn. -/
def editExState : ControllerState :=
  { messages := [{ id := "u1", role := Role.user, content := "old", createdAt := 0 },
                 { id := "a1", role := Role.assistant, content := "resp", createdAt := 1 }],
    model := "gemini-2.5-flash", generating := false, abortSignal := none,
    sessionId := "e0", sessionTitle := "New Chat" }

/-! Helper lemmas about the embedded operations. -/

theorem stop_messages (s : ControllerState) :
    (ChatController.stop s).messages = s.messages := by
  unfold ChatController.stop; split <;> rfl

theorem stop_generating (s : ControllerState) :
    (ChatController.stop s).generating = s.generating := by
  unfold ChatController.stop; split <;> rfl

theorem stop_model (s : ControllerState) :
    (ChatController.stop s).model = s.model := by
  unfold ChatController.stop; split <;> rfl

theorem stop_sessionId (s : ControllerState) :
    (ChatController.stop s).sessionId = s.sessionId := by
  unfold ChatController.stop; split <;> rfl

theorem stop_sessionTitle (s : ControllerState) :
    (ChatController.stop s).sessionTitle = s.sessionTitle := by
  unfold ChatController.stop; split <;> rfl

theorem stop_abortSignal (s : ControllerState) :
    (ChatController.stop s).abortSignal =
      if s.abortSignal = some false then some true else s.abortSignal := by
  unfold ChatController.stop; split <;> rfl

theorem appendDelta_empty (a : ChatMessage) : appendDelta a "" = a := by
  simp [appendDelta, String.append_empty]

theorem appendDelta_appendDelta (a : ChatMessage) (x y : String) :
    appendDelta (appendDelta a x) y = appendDelta a (x ++ y) := by
  simp [appendDelta, String.append_assoc]

theorem appendDelta_id (a : ChatMessage) (x : String) :
    (appendDelta a x).id = a.id := rfl

theorem updateMessages_append (base : List ChatMessage) (old new : ChatMessage)
    (hid : old.id = new.id) (hfresh : ∀ m ∈ base, m.id ≠ new.id) :
    updateMessages (base ++ [old]) new = base ++ [new] := by
  unfold updateMessages
  rw [List.map_append]
  congr 1
  · calc base.map (fun m => if m.id = new.id then new else m)
        = base.map id := List.map_congr_left (fun m hm => by simp [hfresh m hm])
      _ = base := List.map_id base
  · simp [hid]

theorem streamLoop_frame (aMsg : ChatMessage) (s : ControllerState)
    (events : List StreamEvent) :
    (streamLoop aMsg s events).state.generating = s.generating ∧
    (streamLoop aMsg s events).state.model = s.model ∧
    (streamLoop aMsg s events).state.sessionId = s.sessionId ∧
    (streamLoop aMsg s events).state.sessionTitle = s.sessionTitle := by
  induction events generalizing aMsg s with
  | nil => simp [streamLoop]
  | cons e rest ih =>
    cases e with
    | stopCall =>
      have h := ih aMsg (ChatController.stop s)
      simpa [streamLoop, stop_generating, stop_model, stop_sessionId,
             stop_sessionTitle] using h
    | chunk text =>
      cases text with
      | none =>
        by_cases h : signalAborted s
        · simp [streamLoop, h]
        · simpa [streamLoop, h] using ih aMsg s
      | some t =>
        by_cases ht : t = ""
        · by_cases h : signalAborted s
          · simp [streamLoop, ht, h]
          · simpa [streamLoop, ht, h] using ih aMsg s
        · by_cases h : signalAborted s
          · simp [streamLoop, ht, h]
          · have h2 := ih (appendDelta aMsg t)
              { s with messages := updateMessages s.messages (appendDelta aMsg t) }
            simpa [streamLoop, ht, h] using h2

theorem streamLoop_calls_generating (aMsg : ChatMessage) (s : ControllerState)
    (events : List StreamEvent) :
    ∀ c ∈ (streamLoop aMsg s events).calls, c.2 = s.generating := by
  induction events generalizing aMsg s with
  | nil => simp [streamLoop]
  | cons e rest ih =>
    cases e with
    | stopCall =>
      have h := ih aMsg (ChatController.stop s)
      simpa [streamLoop, stop_generating] using h
    | chunk text =>
      cases text with
      | none =>
        by_cases h : signalAborted s
        · simp [streamLoop, h]
        · simpa [streamLoop, h] using ih aMsg s
      | some t =>
        by_cases ht : t = ""
        · by_cases h : signalAborted s
          · simp [streamLoop, ht, h]
          · simpa [streamLoop, ht, h] using ih aMsg s
        · by_cases h : signalAborted s
          · simp [streamLoop, ht, h]
          · have h2 := ih (appendDelta aMsg t)
              { s with messages := updateMessages s.messages (appendDelta aMsg t) }
            intro c hc
            simp only [streamLoop, ht, h] at hc
            simp only [if_neg, Bool.false_eq_true, not_false_iff, if_false] at hc
            rcases List.mem_cons.mp hc with hc | hc
            · simp [hc]
            · exact h2 c hc

theorem signalAborted_true (s : ControllerState) (h : signalAborted s = true) :
    s.abortSignal = some true := by
  cases hs : s.abortSignal with
  | none => simp [signalAborted, hs] at h
  | some b =>
    cases b with
    | false => simp [signalAborted, hs] at h
    | true => rfl

theorem concatDeltas_append (xs ys : List StreamEvent) :
    concatDeltas (xs ++ ys) = concatDeltas xs ++ concatDeltas ys := by
  induction xs with
  | nil => simp [concatDeltas, String.empty_append]
  | cons e rest ih =>
    cases e with
    | stopCall => simpa [concatDeltas] using ih
    | chunk text =>
      cases text with
      | none => simpa [concatDeltas] using ih
      | some t => simp [concatDeltas, ih, String.append_assoc]

theorem concatDeltas_firstChunk_split (events : List StreamEvent) :
    ∃ u, concatDeltas events = firstChunkText events ++ u := by
  induction events with
  | nil => exact ⟨"", by simp [concatDeltas, firstChunkText, String.append_empty]⟩
  | cons e rest ih =>
    cases e with
    | stopCall => simpa [concatDeltas, firstChunkText] using ih
    | chunk text =>
      cases text with
      | none =>
        exact ⟨concatDeltas rest, by simp [concatDeltas, firstChunkText, String.empty_append]⟩
      | some t => exact ⟨concatDeltas rest, by simp [concatDeltas, firstChunkText]⟩

theorem streamLoop_no_stop (aMsg : ChatMessage) (base : List ChatMessage)
    (s : ControllerState) (events : List StreamEvent)
    (hmsgs : s.messages = base ++ [aMsg])
    (hfresh : ∀ m ∈ base, m.id ≠ aMsg.id)
    (hsig : s.abortSignal = some false)
    (hnostop : StreamEvent.stopCall ∉ events) :
    (streamLoop aMsg s events).aMsg = appendDelta aMsg (concatDeltas events) ∧
    (streamLoop aMsg s events).state =
      { s with messages := base ++ [appendDelta aMsg (concatDeltas events)] } ∧
    (streamLoop aMsg s events).broke = false ∧
    (streamLoop aMsg s events).calls.length = nonemptyChunks events := by
  induction events generalizing aMsg s with
  | nil =>
    refine ⟨by simp [streamLoop, concatDeltas, appendDelta_empty], ?_,
      by simp [streamLoop], by simp [streamLoop, nonemptyChunks]⟩
    simp [streamLoop, concatDeltas, appendDelta_empty, ← hmsgs]
  | cons e rest ih =>
    have hsigF : signalAborted s = false := by simp [signalAborted, hsig]
    cases e with
    | stopCall => exact absurd (by simp) hnostop
    | chunk text =>
      have hnostop' : StreamEvent.stopCall ∉ rest :=
        fun hm => hnostop (List.mem_cons_of_mem _ hm)
      cases text with
      | none =>
        have h := ih aMsg s hmsgs hfresh hsig hnostop'
        simpa [streamLoop, hsigF, concatDeltas, nonemptyChunks] using h
      | some t =>
        by_cases ht : t = ""
        · have h := ih aMsg s hmsgs hfresh hsig hnostop'
          simpa [streamLoop, hsigF, ht, concatDeltas, nonemptyChunks,
                 String.empty_append] using h
        · have hupd : updateMessages s.messages (appendDelta aMsg t) =
              base ++ [appendDelta aMsg t] := by
            rw [hmsgs]
            exact updateMessages_append base aMsg (appendDelta aMsg t) rfl
              (fun m hm => hfresh m hm)
          have h := ih (appendDelta aMsg t)
            { s with messages := updateMessages s.messages (appendDelta aMsg t) }
            (by simpa using hupd) (fun m hm => hfresh m hm) hsig hnostop'
          rcases h with ⟨h1, h2, h3, h4⟩
          refine ⟨?_, ?_, ?_, ?_⟩
          · simp [streamLoop, hsigF, ht, h1, appendDelta_appendDelta, concatDeltas]
          · simp only [streamLoop, hsigF, ht]
            simp only [Bool.false_eq_true, if_false, ite_false]
            simp [h2, concatDeltas, appendDelta_appendDelta]
          · simp [streamLoop, hsigF, ht, h3]
          · simp [streamLoop, hsigF, ht, h4, nonemptyChunks]
            omega

theorem streamLoop_aborted (aMsg : ChatMessage) (base : List ChatMessage)
    (s : ControllerState) (events : List StreamEvent)
    (hmsgs : s.messages = base ++ [aMsg])
    (hfresh : ∀ m ∈ base, m.id ≠ aMsg.id)
    (hsig : signalAborted s = true) :
    (streamLoop aMsg s events).aMsg = appendDelta aMsg (firstChunkText events) ∧
    (streamLoop aMsg s events).state =
      { s with messages := base ++ [appendDelta aMsg (firstChunkText events)] } ∧
    (streamLoop aMsg s events).calls.length ≤ 1 := by
  induction events generalizing aMsg s with
  | nil =>
    refine ⟨by simp [streamLoop, firstChunkText, appendDelta_empty], ?_, by simp [streamLoop]⟩
    simp [streamLoop, firstChunkText, appendDelta_empty, ← hmsgs]
  | cons e rest ih =>
    cases e with
    | stopCall =>
      have hstop : ChatController.stop s = s := by
        unfold ChatController.stop
        rw [if_neg]
        simp [signalAborted_true s hsig]
      have h := ih aMsg s hmsgs hfresh hsig
      simpa [streamLoop, hstop, firstChunkText] using h
    | chunk text =>
      cases text with
      | none =>
        refine ⟨by simp [streamLoop, hsig, firstChunkText, appendDelta_empty], ?_,
          by simp [streamLoop, hsig]⟩
        simp [streamLoop, hsig, firstChunkText, appendDelta_empty, ← hmsgs]
      | some t =>
        by_cases ht : t = ""
        · refine ⟨by simp [streamLoop, hsig, ht, firstChunkText, appendDelta_empty], ?_,
            by simp [streamLoop, hsig, ht]⟩
          simp [streamLoop, hsig, ht, firstChunkText, appendDelta_empty, ← hmsgs]
        · have hupd : updateMessages s.messages (appendDelta aMsg t) =
              base ++ [appendDelta aMsg t] := by
            rw [hmsgs]
            exact updateMessages_append base aMsg (appendDelta aMsg t) rfl
              (fun m hm => hfresh m hm)
          refine ⟨by simp [streamLoop, hsig, ht, firstChunkText], ?_,
            by simp [streamLoop, hsig, ht]⟩
          simp [streamLoop, hsig, ht, firstChunkText, hupd]

theorem streamLoop_append (aMsg : ChatMessage) (s : ControllerState)
    (xs ys : List StreamEvent) (h : (streamLoop aMsg s xs).broke = false) :
    (streamLoop aMsg s (xs ++ ys)).aMsg =
      (streamLoop (streamLoop aMsg s xs).aMsg (streamLoop aMsg s xs).state ys).aMsg ∧
    (streamLoop aMsg s (xs ++ ys)).state =
      (streamLoop (streamLoop aMsg s xs).aMsg (streamLoop aMsg s xs).state ys).state ∧
    (streamLoop aMsg s (xs ++ ys)).calls =
      (streamLoop aMsg s xs).calls ++
        (streamLoop (streamLoop aMsg s xs).aMsg (streamLoop aMsg s xs).state ys).calls ∧
    (streamLoop aMsg s (xs ++ ys)).broke =
      (streamLoop (streamLoop aMsg s xs).aMsg (streamLoop aMsg s xs).state ys).broke := by
  induction xs generalizing aMsg s with
  | nil => simp [streamLoop]
  | cons e rest ih =>
    cases e with
    | stopCall =>
      simpa [streamLoop] using
        ih aMsg (ChatController.stop s) (by simpa [streamLoop] using h)
    | chunk text =>
      cases text with
      | none =>
        by_cases ha : signalAborted s
        · exfalso; simp [streamLoop, ha] at h
        · simpa [streamLoop, ha] using ih aMsg s (by simpa [streamLoop, ha] using h)
      | some t =>
        by_cases ht : t = ""
        · by_cases ha : signalAborted s
          · exfalso; simp [streamLoop, ht, ha] at h
          · simpa [streamLoop, ht, ha] using
              ih aMsg s (by simpa [streamLoop, ht, ha] using h)
        · by_cases ha : signalAborted s
          · exfalso; simp [streamLoop, ht, ha] at h
          · have h2 := ih (appendDelta aMsg t)
              { s with messages := updateMessages s.messages (appendDelta aMsg t) }
              (by simpa [streamLoop, ht, ha] using h)
            simpa [streamLoop, ht, ha] using h2

theorem filter_false_calls (cs : List ObserverCall) (h : ∀ c ∈ cs, c.2 = true) :
    cs.filter (fun c => !c.2) = [] := by
  induction cs with
  | nil => rfl
  | cons c rest ih =>
    have hc := h c (by simp)
    have hrest := ih (fun x hx => h x (List.mem_cons_of_mem _ hx))
    simp [List.filter_cons, hc, hrest]

theorem streamLoop_filter_false (aMsg : ChatMessage) (s : ControllerState)
    (events : List StreamEvent) (hgen : s.generating = true) :
    (streamLoop aMsg s events).calls.filter (fun c => !c.2) = [] :=
  filter_false_calls _
    (fun c hc => by rw [streamLoop_calls_generating aMsg s events c hc, hgen])

theorem stop_fires (s : ControllerState) (h : s.abortSignal = some false) :
    ChatController.stop s = { s with abortSignal := some true } := by
  unfold ChatController.stop
  rw [if_pos h]

/-- Shared shape of the generate procedure when no stop call occurs: the
streaming call receives exactly the pre-existing messages, the final
list appends one assistant message holding the concatenation of every
delivered fragment, and the catch branch runs exactly when the transport
ends in error. -/
theorem generateResponse_no_stop (assistantId : String) (now : Nat)
    (events : List StreamEvent) (endKind : StreamEnd) (s : ControllerState)
    (hfresh : ∀ m ∈ s.messages, m.id ≠ assistantId)
    (hnostop : StreamEvent.stopCall ∉ events) :
    (ChatController.generateResponse assistantId now events endKind s).sent =
      some s.messages ∧
    (ChatController.generateResponse assistantId now events endKind s).state.messages =
      s.messages ++ [ChatMessage.mk assistantId Role.assistant (concatDeltas events) now] ∧
    (ChatController.generateResponse assistantId now events endKind s).caughtError =
      (match endKind with | StreamEnd.error => true | StreamEnd.success => false) := by
  obtain ⟨h1, h2, h3, _⟩ := streamLoop_no_stop
    (ChatMessage.mk assistantId Role.assistant "" now) s.messages
    (ControllerState.mk
      (s.messages ++ [ChatMessage.mk assistantId Role.assistant "" now])
      s.model true (some false) s.sessionId s.sessionTitle)
    events rfl (fun m hm => hfresh m hm) rfl hnostop
  refine ⟨?_, ?_, ?_⟩
  · simp [ChatController.generateResponse, List.dropLast_concat]
  · simp only [ChatController.generateResponse]
    rw [h2]
    simp [appendDelta, String.empty_append]
  · simp only [ChatController.generateResponse]
    rw [h3]
    rfl

/-- Shared shape of the generate procedure when a stop call fires after
the stop-free schedule pre, with schedule post still to be delivered:
the assistant message ends holding the fragments of pre plus at most the
single in-flight chunk at the head of post, and at most one onText
notification happens after the stop. -/
theorem generateResponse_stop_midstream (assistantId : String) (now : Nat)
    (pre post : List StreamEvent) (endKind : StreamEnd) (s : ControllerState)
    (hfresh : ∀ m ∈ s.messages, m.id ≠ assistantId)
    (hnostop : StreamEvent.stopCall ∉ pre) :
    (ChatController.generateResponse assistantId now
        (pre ++ StreamEvent.stopCall :: post) endKind s).state.messages =
      s.messages ++ [ChatMessage.mk assistantId Role.assistant
        (concatDeltas pre ++ firstChunkText post) now] ∧
    (ChatController.generateResponse assistantId now
        (pre ++ StreamEvent.stopCall :: post) endKind s).calls.length ≤
      nonemptyChunks pre + 3 := by
  obtain ⟨ha1, hs1, hb1, hc1⟩ := streamLoop_no_stop
    (ChatMessage.mk assistantId Role.assistant "" now) s.messages
    (ControllerState.mk
      (s.messages ++ [ChatMessage.mk assistantId Role.assistant "" now])
      s.model true (some false) s.sessionId s.sessionTitle)
    pre rfl (fun m hm => hfresh m hm) rfl hnostop
  obtain ⟨hA, hS, hC, hB⟩ := streamLoop_append
    (ChatMessage.mk assistantId Role.assistant "" now)
    (ControllerState.mk
      (s.messages ++ [ChatMessage.mk assistantId Role.assistant "" now])
      s.model true (some false) s.sessionId s.sessionTitle)
    pre (StreamEvent.stopCall :: post) hb1
  have hsigF : (streamLoop (ChatMessage.mk assistantId Role.assistant "" now)
      (ControllerState.mk
        (s.messages ++ [ChatMessage.mk assistantId Role.assistant "" now])
        s.model true (some false) s.sessionId s.sessionTitle)
      pre).state.abortSignal = some false := by
    rw [hs1]
  have hstopEq : ChatController.stop (streamLoop
      (ChatMessage.mk assistantId Role.assistant "" now)
      (ControllerState.mk
        (s.messages ++ [ChatMessage.mk assistantId Role.assistant "" now])
        s.model true (some false) s.sessionId s.sessionTitle)
      pre).state = { (streamLoop (ChatMessage.mk assistantId Role.assistant "" now)
        (ControllerState.mk
          (s.messages ++ [ChatMessage.mk assistantId Role.assistant "" now])
          s.model true (some false) s.sessionId s.sessionTitle)
        pre).state with abortSignal := some true } :=
    stop_fires _ hsigF
  obtain ⟨hA2, hS2, hL2⟩ := streamLoop_aborted
    (streamLoop (ChatMessage.mk assistantId Role.assistant "" now)
      (ControllerState.mk
        (s.messages ++ [ChatMessage.mk assistantId Role.assistant "" now])
        s.model true (some false) s.sessionId s.sessionTitle)
      pre).aMsg
    s.messages
    (ChatController.stop (streamLoop (ChatMessage.mk assistantId Role.assistant "" now)
      (ControllerState.mk
        (s.messages ++ [ChatMessage.mk assistantId Role.assistant "" now])
        s.model true (some false) s.sessionId s.sessionTitle)
      pre).state)
    post
    (by rw [stop_messages, hs1, ha1])
    (fun m hm => by rw [ha1, appendDelta_id]; exact hfresh m hm)
    (by rw [hstopEq]; simp [signalAborted])
  constructor
  · simp only [ChatController.generateResponse]
    rw [hS]
    have hstep : ∀ lr : LoopResult,
        streamLoop lr.aMsg lr.state (StreamEvent.stopCall :: post) =
        streamLoop lr.aMsg (ChatController.stop lr.state) post := fun lr => rfl
    rw [hstep, hS2, ha1, appendDelta_appendDelta]
    simp [appendDelta, String.empty_append]
  · simp only [ChatController.generateResponse]
    rw [hC]
    have hstep : ∀ lr : LoopResult,
        streamLoop lr.aMsg lr.state (StreamEvent.stopCall :: post) =
        streamLoop lr.aMsg (ChatController.stop lr.state) post := fun lr => rfl
    rw [hstep]
    simp only [List.length_cons, List.length_append, List.length_nil, hc1]
    omega

/-! Claim theorems. -/

/-- C1: every invocation of the generate procedure, on any schedule of
delta deliveries and stop calls and either kind of stream end, makes its
final observer call with busy = false, makes exactly one busy = false
observer call overall, and exits in the Idle state: the generating flag
cleared and the abort-controller handle null. -/
theorem generate_procedure_final_observer (assistantId : String) (now : Nat)
    (events : List StreamEvent) (endKind : StreamEnd) (s : ControllerState) :
    (ChatController.generateResponse assistantId now events endKind s).calls.getLast? =
      some ((ChatController.generateResponse assistantId now events endKind s).state.messages,
            false) ∧
    ((ChatController.generateResponse assistantId now events endKind s).calls.filter
        (fun c => !c.2)).length = 1 ∧
    (ChatController.generateResponse assistantId now events endKind s).state.generating
      = false ∧
    (ChatController.generateResponse assistantId now events endKind s).state.abortSignal
      = none := by
  simp only [ChatController.generateResponse]
  refine ⟨?_, ?_, ?_, ?_⟩
  · rw [← List.cons_append, List.getLast?_concat]
  · rw [List.filter_cons, List.filter_append, streamLoop_filter_false _ _ _ rfl]
    simp
  · trivial
  · trivial

/-- C10: ChatController.stop mutates no controller state other than the
abort signal: the message list, session id, session title, model and
generating flag are unchanged (so isBusy answers as before, still true
while a generation is in flight), the only effect is flipping an unfired
abort signal to fired, and the method takes no observer so it invokes
none. -/
theorem stop_mutates_only_abort_signal (s : ControllerState) :
    (ChatController.stop s).messages = s.messages ∧
    (ChatController.stop s).sessionId = s.sessionId ∧
    (ChatController.stop s).sessionTitle = s.sessionTitle ∧
    (ChatController.stop s).model = s.model ∧
    (ChatController.stop s).generating = s.generating ∧
    ChatController.isBusy (ChatController.stop s) = ChatController.isBusy s ∧
    (ChatController.stop s).abortSignal =
      (if s.abortSignal = some false then some true else s.abortSignal) :=
  ⟨stop_messages s, stop_sessionId s, stop_sessionTitle s, stop_model s,
   stop_generating s, by simp [ChatController.isBusy, stop_generating s],
   stop_abortSignal s⟩

/-- C7 counterexample: exportSession on an empty message list stamps
createdAt with the export-time clock reading, so two exports of the same
untouched state disagree, and neither equals the session-creation time
the claim names (modelled by exportSessionSpecCreatedAt for a controller
constructed at time 0). -/
theorem exportSession_createdAt_counterexample :
    (ChatController.exportSession 5 (freshState "s0")).createdAt = 5 ∧
    (ChatController.exportSession 7 (freshState "s0")).createdAt = 7 ∧
    exportSessionSpecCreatedAt 0 (freshState "s0") = 0 ∧
    (ChatController.exportSession 5 (freshState "s0")).createdAt ≠
      exportSessionSpecCreatedAt 0 (freshState "s0") := by
  refine ⟨rfl, rfl, rfl, by decide⟩

/-- C7 amended: exportSession createdAt equals the first message's
createdAt when the list is non-empty, and equals the export call's own
timestamp (the same clock reading stored in updatedAt) when the list is
empty. -/
theorem exportSession_createdAt_amended (now : Nat) (s : ControllerState) :
    (s.messages = [] →
      (ChatController.exportSession now s).createdAt = now ∧
      (ChatController.exportSession now s).createdAt =
        (ChatController.exportSession now s).updatedAt) ∧
    (∀ m rest, s.messages = m :: rest →
      (ChatController.exportSession now s).createdAt = m.createdAt) := by
  constructor
  · intro h
    simp [ChatController.exportSession, h]
  · intro m rest h
    simp [ChatController.exportSession, h]

/-- C7 witness: the amended rule evaluated on a fresh empty controller
exported at time 5. -/
theorem exportSession_createdAt_amended_witness :
    (ChatController.exportSession 5 (freshState "w7")).createdAt = 5 ∧
    (ChatController.exportSession 5 (freshState "w7")).createdAt =
      (ChatController.exportSession 5 (freshState "w7")).updatedAt :=
  (exportSession_createdAt_amended 5 (freshState "w7")).1 rfl

/-- C8 counterexample: the input " hi " has length 4, at most 50, yet
generateTitle returns the trimmed text "hi" rather than the text
verbatim: the claim overlooks the trim step. -/
theorem generateTitle_counterexample :
    (" hi " : String).length ≤ 50 ∧
    generateTitle " hi " = "hi" ∧
    generateTitle " hi " ≠ " hi " := by
  refine ⟨by decide, by decide, by decide⟩

/-- C8 amended: generateTitle first trims its input; when the trimmed
text has length at most 50 it returns the trimmed text verbatim, and
otherwise the first 50 characters of the trimmed text followed by
"...". -/
theorem generateTitle_amended (s : String) :
    ((jsTrim s).length ≤ 50 → generateTitle s = jsTrim s) ∧
    (50 < (jsTrim s).length →
      generateTitle s = jsTake (jsTrim s) 50 ++ "...") := by
  constructor
  · intro h
    simp [generateTitle, h]
  · intro h
    have h' : ¬(jsTrim s).length ≤ 50 := Nat.not_le.mpr h
    simp [generateTitle, h']

/-- C8 witness: the amended rule evaluated on "hi". -/
theorem generateTitle_amended_witness :
    (jsTrim "hi").length ≤ 50 ∧ generateTitle "hi" = jsTrim "hi" :=
  ⟨by decide, (generateTitle_amended "hi").1 (by decide)⟩

/-- C9: for every already-trimmed candidate, the add-custom-model
operation (handleAddModel feeding addCustomModel) leaves the stored
custom list unchanged when the candidate lacks the required "models/"
prefix, duplicates a default model, or duplicates an existing custom
entry, and otherwise appends the candidate to the list. -/
theorem addCustomModel_validation (m : String) (customs : List String)
    (htrim : jsTrim m = m) :
    ((jsStartsWith m "models/" = false ∨ m ∈ DEFAULT_MODELS ∨ m ∈ customs) →
      (handleAddModel m customs).1 = customs) ∧
    (jsStartsWith m "models/" = true → m ∉ DEFAULT_MODELS → m ∉ customs →
      (handleAddModel m customs).1 = customs ++ [m]) := by
  constructor
  · intro h
    by_cases hm : m = ""
    · subst hm
      simp [handleAddModel, htrim]
    · rcases h with h | h | h
      · simp [handleAddModel, htrim, hm, h]
      · by_cases hsw : jsStartsWith m "models/"
        · simp [handleAddModel, htrim, hm, hsw, h]
        · simp [handleAddModel, htrim, hm, hsw]
      · by_cases hsw : jsStartsWith m "models/"
        · by_cases hd : m ∈ DEFAULT_MODELS
          · simp [handleAddModel, htrim, hm, hsw, hd]
          · simp [handleAddModel, htrim, hm, hsw, hd, h]
        · simp [handleAddModel, htrim, hm, hsw]
  · intro hsw hd hc
    have hm : m ≠ "" := by
      intro h0
      rw [h0] at hsw
      exact absurd hsw (by decide)
    simp [handleAddModel, addCustomModel, htrim, hm, hsw, hd, hc]

/-- C9 witness: adding the well-formed new candidate "models/custom-x"
to an empty custom list appends it. -/
theorem addCustomModel_validation_witness :
    (handleAddModel "models/custom-x" []).1 = ["models/custom-x"] :=
  (addCustomModel_validation "models/custom-x" [] (by decide)).2 (by decide)
    (by decide) (by simp)

/-- C2: a send while Idle with text that does not trim to empty appends
exactly one user message and then exactly one assistant message, in that
order; hands the streaming call every message except the just-appended
empty assistant placeholder; and, absent any stop call, ends with the
assistant message's content equal to the concatenation, in delivery
order, of every delta fragment delivered before stream end.  The ids
produced by uid() are assumed fresh. -/
theorem send_appends_and_streams (userId assistantId : String) (nowU nowA : Nat)
    (userText : String) (events : List StreamEvent) (endKind : StreamEnd)
    (s : ControllerState)
    (hbusy : s.generating = false)
    (htext : jsTrim userText ≠ "")
    (hnostop : StreamEvent.stopCall ∉ events)
    (hfresh : ∀ m ∈ s.messages, m.id ≠ assistantId)
    (hneq : userId ≠ assistantId) :
    (ChatController.send userId assistantId nowU nowA userText events endKind s).sent =
      some (s.messages ++ [ChatMessage.mk userId Role.user userText nowU]) ∧
    (ChatController.send userId assistantId nowU nowA userText events endKind
        s).state.messages =
      s.messages ++ [ChatMessage.mk userId Role.user userText nowU,
        ChatMessage.mk assistantId Role.assistant (concatDeltas events) nowA] := by
  unfold ChatController.send
  rw [if_neg htext, if_neg (by simp [hbusy])]
  have h := generateResponse_no_stop assistantId nowA events endKind
    { s with messages := s.messages ++ [ChatMessage.mk userId Role.user userText nowU] }
    (by
      intro m hm
      rcases List.mem_append.mp hm with hm | hm
      · exact hfresh m hm
      · simp only [List.mem_singleton] at hm
        subst hm
        exact hneq)
    hnostop
  rcases h with ⟨h1, h2, _⟩
  constructor
  · simpa using h1
  · simpa [List.append_assoc] using h2

/-- C2 witness: the spec scenario, sending "hi" with fragments "He" and
"llo" delivered then completion. -/
theorem send_appends_and_streams_witness :
    (ChatController.send "u1" "a1" 0 1 "hi"
        [StreamEvent.chunk (some "He"), StreamEvent.chunk (some "llo")]
        StreamEnd.success (freshState "w2")).sent =
      some ((freshState "w2").messages ++ [ChatMessage.mk "u1" Role.user "hi" 0]) ∧
    (ChatController.send "u1" "a1" 0 1 "hi"
        [StreamEvent.chunk (some "He"), StreamEvent.chunk (some "llo")]
        StreamEnd.success (freshState "w2")).state.messages =
      (freshState "w2").messages ++ [ChatMessage.mk "u1" Role.user "hi" 0,
        ChatMessage.mk "a1" Role.assistant
          (concatDeltas [StreamEvent.chunk (some "He"), StreamEvent.chunk (some "llo")]) 1] :=
  send_appends_and_streams "u1" "a1" 0 1 "hi"
    [StreamEvent.chunk (some "He"), StreamEvent.chunk (some "llo")]
    StreamEnd.success (freshState "w2") rfl (by decide) (by decide) (by simp [freshState])
    (by decide)

/-- C4: when the streaming transport raises an error after delivering
zero or more fragments (no stop call), the error is caught inside the
generate procedure, whichever of send, editMessage or regenerate entered
it: each operation returns an ordinary result whose catch branch ran, no
exception escapes, the assistant message keeps exactly the partial
content streamed before the failure, the controller returns to Idle
(generating cleared, abort handle null), and the state and observer
calls are identical to those of a successful stream end after the same
fragments.  The first conjunct covers send past its guards, the second
editMessage resolving a user message at index i, the third regenerate
with a trailing assistant message (dropped) or a trailing user
message. -/
theorem transport_error_swallowed (userId assistantId messageId : String)
    (newContent userText : String) (nowU nowA : Nat)
    (events : List StreamEvent) (s : ControllerState)
    (hbusy : s.generating = false)
    (hnostop : StreamEvent.stopCall ∉ events)
    (hfresh : ∀ m ∈ s.messages, m.id ≠ assistantId) :
    (jsTrim userText ≠ "" → userId ≠ assistantId →
      (ChatController.send userId assistantId nowU nowA userText events
          StreamEnd.error s).caughtError = true ∧
      (ChatController.send userId assistantId nowU nowA userText events
          StreamEnd.error s).state.generating = false ∧
      (ChatController.send userId assistantId nowU nowA userText events
          StreamEnd.error s).state.abortSignal = none ∧
      (ChatController.send userId assistantId nowU nowA userText events
          StreamEnd.error s).state.messages =
        s.messages ++ [ChatMessage.mk userId Role.user userText nowU,
          ChatMessage.mk assistantId Role.assistant (concatDeltas events) nowA] ∧
      (ChatController.send userId assistantId nowU nowA userText events
          StreamEnd.error s).state =
        (ChatController.send userId assistantId nowU nowA userText events
          StreamEnd.success s).state ∧
      (ChatController.send userId assistantId nowU nowA userText events
          StreamEnd.error s).calls =
        (ChatController.send userId assistantId nowU nowA userText events
          StreamEnd.success s).calls) ∧
    (∀ i msg, s.messages.findIdx? (fun m => m.id == messageId) = some i →
      s.messages.get? i = some msg → msg.role = Role.user →
      (ChatController.editMessage messageId newContent assistantId nowA events
          StreamEnd.error s).caughtError = true ∧
      (ChatController.editMessage messageId newContent assistantId nowA events
          StreamEnd.error s).state.generating = false ∧
      (ChatController.editMessage messageId newContent assistantId nowA events
          StreamEnd.error s).state.abortSignal = none ∧
      (ChatController.editMessage messageId newContent assistantId nowA events
          StreamEnd.error s).state.messages =
        (s.messages.set i { msg with content := newContent }).take (i + 1) ++
          [ChatMessage.mk assistantId Role.assistant (concatDeltas events) nowA] ∧
      (ChatController.editMessage messageId newContent assistantId nowA events
          StreamEnd.error s).state =
        (ChatController.editMessage messageId newContent assistantId nowA events
          StreamEnd.success s).state ∧
      (ChatController.editMessage messageId newContent assistantId nowA events
          StreamEnd.error s).calls =
        (ChatController.editMessage messageId newContent assistantId nowA events
          StreamEnd.success s).calls) ∧
    (∀ lastMsg, s.messages.getLast? = some lastMsg →
      (lastMsg.role = Role.assistant → s.messages.dropLast ≠ [] →
        (ChatController.regenerate assistantId nowA events
            StreamEnd.error s).caughtError = true ∧
        (ChatController.regenerate assistantId nowA events
            StreamEnd.error s).state.generating = false ∧
        (ChatController.regenerate assistantId nowA events
            StreamEnd.error s).state.abortSignal = none ∧
        (ChatController.regenerate assistantId nowA events
            StreamEnd.error s).state.messages =
          s.messages.dropLast ++
            [ChatMessage.mk assistantId Role.assistant (concatDeltas events) nowA] ∧
        (ChatController.regenerate assistantId nowA events StreamEnd.error s).state =
          (ChatController.regenerate assistantId nowA events StreamEnd.success s).state ∧
        (ChatController.regenerate assistantId nowA events StreamEnd.error s).calls =
          (ChatController.regenerate assistantId nowA events StreamEnd.success s).calls) ∧
      (lastMsg.role = Role.user →
        (ChatController.regenerate assistantId nowA events
            StreamEnd.error s).caughtError = true ∧
        (ChatController.regenerate assistantId nowA events
            StreamEnd.error s).state.generating = false ∧
        (ChatController.regenerate assistantId nowA events
            StreamEnd.error s).state.abortSignal = none ∧
        (ChatController.regenerate assistantId nowA events
            StreamEnd.error s).state.messages =
          s.messages ++
            [ChatMessage.mk assistantId Role.assistant (concatDeltas events) nowA] ∧
        (ChatController.regenerate assistantId nowA events StreamEnd.error s).state =
          (ChatController.regenerate assistantId nowA events StreamEnd.success s).state ∧
        (ChatController.regenerate assistantId nowA events StreamEnd.error s).calls =
          (ChatController.regenerate assistantId nowA events StreamEnd.success s).calls)) := by
  have core : ∀ s' : ControllerState, (∀ m ∈ s'.messages, m.id ≠ assistantId) →
      (ChatController.generateResponse assistantId nowA events
          StreamEnd.error s').caughtError = true ∧
      (ChatController.generateResponse assistantId nowA events
          StreamEnd.error s').state.generating = false ∧
      (ChatController.generateResponse assistantId nowA events
          StreamEnd.error s').state.abortSignal = none ∧
      (ChatController.generateResponse assistantId nowA events
          StreamEnd.error s').state.messages =
        s'.messages ++
          [ChatMessage.mk assistantId Role.assistant (concatDeltas events) nowA] := by
    intro s' hf
    obtain ⟨_, h2, h3⟩ :=
      generateResponse_no_stop assistantId nowA events StreamEnd.error s' hf hnostop
    exact ⟨by rw [h3], rfl, rfl, h2⟩
  refine ⟨?_, ?_, ?_⟩
  · intro htext hneq
    have hred : ∀ ek : StreamEnd,
        ChatController.send userId assistantId nowU nowA userText events ek s =
        ChatController.generateResponse assistantId nowA events ek
          { s with messages :=
              s.messages ++ [ChatMessage.mk userId Role.user userText nowU] } := by
      intro ek
      unfold ChatController.send
      rw [if_neg htext, if_neg (by simp [hbusy])]
    have hf2 : ∀ m ∈ s.messages ++ [ChatMessage.mk userId Role.user userText nowU],
        m.id ≠ assistantId := by
      intro m hm
      rcases List.mem_append.mp hm with hm | hm
      · exact hfresh m hm
      · simp only [List.mem_singleton] at hm
        subst hm
        exact hneq
    obtain ⟨c1, c2, c3, c4⟩ := core
      { s with messages := s.messages ++ [ChatMessage.mk userId Role.user userText nowU] }
      hf2
    refine ⟨by rw [hred]; exact c1, by rw [hred]; exact c2, by rw [hred]; exact c3,
      ?_, by rw [hred, hred]; rfl, by rw [hred, hred]; rfl⟩
    rw [hred]
    simpa [List.append_assoc] using c4
  · intro i msg hfind hget hrole
    have hmem : msg ∈ s.messages := List.get?_mem hget
    have hred : ∀ ek : StreamEnd,
        ChatController.editMessage messageId newContent assistantId nowA events ek s =
        ChatController.generateResponse assistantId nowA events ek
          { s with messages :=
              (s.messages.set i { msg with content := newContent }).take (i + 1) } := by
      intro ek
      unfold ChatController.editMessage
      rw [if_neg (by simp [hbusy]), hfind]
      simp only [hget]
      rw [if_pos hrole]
    have hf2 : ∀ m ∈ (s.messages.set i { msg with content := newContent }).take (i + 1),
        m.id ≠ assistantId := by
      intro m hm
      rcases List.mem_or_eq_of_mem_set (List.mem_of_mem_take hm) with h | h
      · exact hfresh m h
      · subst h
        exact hfresh msg hmem
    obtain ⟨c1, c2, c3, c4⟩ := core
      { s with messages :=
          (s.messages.set i { msg with content := newContent }).take (i + 1) }
      hf2
    refine ⟨by rw [hred]; exact c1, by rw [hred]; exact c2, by rw [hred]; exact c3,
      ?_, by rw [hred, hred]; rfl, by rw [hred, hred]; rfl⟩
    rw [hred]
    simpa using c4
  · intro lastMsg hlast
    have hempty : s.messages.isEmpty = false := by
      cases hmsgs : s.messages with
      | nil => rw [hmsgs] at hlast; simp at hlast
      | cons a l => rfl
    constructor
    · intro hrole hne
      have hred : ∀ ek : StreamEnd,
          ChatController.regenerate assistantId nowA events ek s =
          ChatController.generateResponse assistantId nowA events ek
            { s with messages := s.messages.dropLast } := by
        intro ek
        unfold ChatController.regenerate
        rw [if_neg (by simp [hbusy]), if_neg (by simp [hempty])]
        simp only [hlast]
        rw [if_pos hrole, if_pos (List.length_pos.mpr hne)]
      have hf2 : ∀ m ∈ s.messages.dropLast, m.id ≠ assistantId :=
        fun m hm => hfresh m ((List.dropLast_sublist s.messages).subset hm)
      obtain ⟨c1, c2, c3, c4⟩ := core { s with messages := s.messages.dropLast } hf2
      refine ⟨by rw [hred]; exact c1, by rw [hred]; exact c2, by rw [hred]; exact c3,
        ?_, by rw [hred, hred]; rfl, by rw [hred, hred]; rfl⟩
      rw [hred]
      simpa using c4
    · intro hrole
      have hne : s.messages ≠ [] := by
        intro h0
        rw [h0] at hlast
        simp at hlast
      have hred : ∀ ek : StreamEnd,
          ChatController.regenerate assistantId nowA events ek s =
          ChatController.generateResponse assistantId nowA events ek s := by
        intro ek
        unfold ChatController.regenerate
        rw [if_neg (by simp [hbusy]), if_neg (by simp [hempty])]
        simp only [hlast]
        simp [hrole, List.length_pos.mpr hne]
      obtain ⟨c1, c2, c3, c4⟩ := core s hfresh
      refine ⟨by rw [hred]; exact c1, by rw [hred]; exact c2, by rw [hred]; exact c3,
        ?_, by rw [hred, hred]; rfl, by rw [hred, hred]; rfl⟩
      rw [hred]
      simpa using c4

/-- C4 witness: transport failing after the single fragment "He" on a
session holding a user and an assistant turn, entered through each of
send, editMessage and regenerate. -/
theorem transport_error_swallowed_witness :
    (ChatController.send "u9" "a2" 0 1 "hi" [StreamEvent.chunk (some "He")]
        StreamEnd.error editExState).caughtError = true ∧
    (ChatController.send "u9" "a2" 0 1 "hi" [StreamEvent.chunk (some "He")]
        StreamEnd.error editExState).state.messages =
      editExState.messages ++ [ChatMessage.mk "u9" Role.user "hi" 0,
        ChatMessage.mk "a2" Role.assistant
          (concatDeltas [StreamEvent.chunk (some "He")]) 1] ∧
    (ChatController.editMessage "u1" "new" "a2" 1 [StreamEvent.chunk (some "He")]
        StreamEnd.error editExState).caughtError = true ∧
    (ChatController.editMessage "u1" "new" "a2" 1 [StreamEvent.chunk (some "He")]
        StreamEnd.error editExState).state.messages =
      (editExState.messages.set 0
          { ChatMessage.mk "u1" Role.user "old" 0 with content := "new" }).take 1 ++
        [ChatMessage.mk "a2" Role.assistant
          (concatDeltas [StreamEvent.chunk (some "He")]) 1] ∧
    (ChatController.regenerate "a2" 1 [StreamEvent.chunk (some "He")]
        StreamEnd.error editExState).caughtError = true ∧
    (ChatController.regenerate "a2" 1 [StreamEvent.chunk (some "He")]
        StreamEnd.error editExState).state.messages =
      editExState.messages.dropLast ++
        [ChatMessage.mk "a2" Role.assistant
          (concatDeltas [StreamEvent.chunk (some "He")]) 1] := by
  have h := transport_error_swallowed "u9" "a2" "u1" "new" "hi" 0 1
    [StreamEvent.chunk (some "He")] editExState rfl (by decide) (by decide)
  obtain ⟨h1, h2, h3⟩ := h
  have hs := h1 (by decide) (by decide)
  have he := h2 0 (ChatMessage.mk "u1" Role.user "old" 0) (by decide) (by decide) rfl
  have hr := (h3 (ChatMessage.mk "a1" Role.assistant "resp" 1) (by decide)).1 rfl
    (by decide)
  exact ⟨hs.1, hs.2.2.2.1, he.1, he.2.2.2.1, hr.1, hr.2.2.2.1⟩

/-- C5: editMessage on an id resolving to a user message at index i
replaces that message's content and truncates the list to length i + 1
before running the generate procedure (the truncated list is exactly
what the streaming call receives); editMessage with an unknown id, or an
id resolving to an assistant message, changes nothing and makes no
observer call. -/
theorem editMessage_truncates_or_noop (messageId newContent assistantId : String)
    (now : Nat) (events : List StreamEvent) (endKind : StreamEnd)
    (s : ControllerState) (hbusy : s.generating = false) :
    (∀ i msg, s.messages.findIdx? (fun m => m.id == messageId) = some i →
      s.messages.get? i = some msg → msg.role = Role.user →
      (ChatController.editMessage messageId newContent assistantId now events endKind
          s).sent =
        some ((s.messages.set i { msg with content := newContent }).take (i + 1)) ∧
      ((s.messages.set i { msg with content := newContent }).take (i + 1)).length
        = i + 1) ∧
    (s.messages.findIdx? (fun m => m.id == messageId) = none →
      ChatController.editMessage messageId newContent assistantId now events endKind s
        = noOp s) ∧
    (∀ i msg, s.messages.findIdx? (fun m => m.id == messageId) = some i →
      s.messages.get? i = some msg → msg.role = Role.assistant →
      ChatController.editMessage messageId newContent assistantId now events endKind s
        = noOp s) := by
  refine ⟨?_, ?_, ?_⟩
  · intro i msg hfind hget hrole
    have hlt : i < s.messages.length := List.get?_eq_some.mp hget |>.1
    constructor
    · unfold ChatController.editMessage
      rw [if_neg (by simp [hbusy]), hfind]
      simp only [hget]
      rw [if_pos hrole]
      simp [ChatController.generateResponse, List.dropLast_concat]
    · simp [List.length_take, List.length_set]
      omega
  · intro hfind
    unfold ChatController.editMessage
    rw [if_neg (by simp [hbusy]), hfind]
  · intro i msg hfind hget hrole
    unfold ChatController.editMessage
    rw [if_neg (by simp [hbusy]), hfind]
    simp only [hget]
    rw [if_neg (by simp [hrole])]

/-- C5 witness: editing the user message "u1" of a two-message session. -/
theorem editMessage_truncates_witness :
    (ChatController.editMessage "u1" "new" "a2" 5 [] StreamEnd.success
        editExState).sent =
      some ((editExState.messages.set 0
        { ChatMessage.mk "u1" Role.user "old" 0 with content := "new" }).take 1) ∧
    ((editExState.messages.set 0
        { ChatMessage.mk "u1" Role.user "old" 0 with content := "new" }).take 1).length
      = 1 :=
  (editMessage_truncates_or_noop "u1" "new" "a2" 5 [] StreamEnd.success editExState
    rfl).1 0 (ChatMessage.mk "u1" Role.user "old" 0) (by decide) (by decide) rfl

/-- C6: while the generating flag is set, send, editMessage, regenerate,
clear, loadSession and createNewSession are silent no-ops: message list,
busy flag, session id, session title and model are unchanged, no
observer is invoked, no stream is opened, and no error surfaces. -/
theorem busy_operations_noop (s : ControllerState) (hbusy : s.generating = true)
    (userId assistantId messageId newContent userText newId : String)
    (nowU nowA : Nat) (events : List StreamEvent) (endKind : StreamEnd)
    (session : ChatSession) :
    ChatController.send userId assistantId nowU nowA userText events endKind s
      = noOp s ∧
    ChatController.editMessage messageId newContent assistantId nowA events endKind s
      = noOp s ∧
    ChatController.regenerate assistantId nowA events endKind s = noOp s ∧
    ChatController.clear s = s ∧
    ChatController.loadSession session s = s ∧
    ChatController.createNewSession newId s = s := by
  refine ⟨?_, ?_, ?_, ?_, ?_, ?_⟩
  · unfold ChatController.send
    split
    · rfl
    · simp [hbusy]
  · simp [ChatController.editMessage, hbusy]
  · simp [ChatController.regenerate, hbusy]
  · simp [ChatController.clear, hbusy]
  · simp [ChatController.loadSession, hbusy]
  · simp [ChatController.createNewSession, hbusy]

/-- C6 witness: every operation applied to a busy controller. -/
theorem busy_operations_noop_witness :
    ChatController.send "u" "a" 0 1 "hi" [] StreamEnd.success busyState
      = noOp busyState ∧
    ChatController.editMessage "m" "n" "a" 1 [] StreamEnd.success busyState
      = noOp busyState ∧
    ChatController.regenerate "a" 1 [] StreamEnd.success busyState = noOp busyState ∧
    ChatController.clear busyState = busyState ∧
    ChatController.loadSession (ChatSession.mk "i" "t" [] "m" 0 0) busyState
      = busyState ∧
    ChatController.createNewSession "n" busyState = busyState :=
  busy_operations_noop busyState rfl "u" "a" "m" "n" "hi" "n" 0 1 []
    StreamEnd.success (ChatSession.mk "i" "t" [] "m" 0 0)

/-- C3 counterexample: deltas "He" then "llo" with stop fired between
them.  The fragment "llo" is delivered after the cancellation signal
fires, yet the final assistant content is "Hello": the loop hands each
chunk to onText before checking signal.aborted, so the one in-flight
fragment is appended even though the claim says no post-cancellation
fragment ever is (the claim would require content "He"). -/
theorem stop_midstream_counterexample :
    ((ChatController.send "u1" "a1" 0 1 "hi"
        [StreamEvent.chunk (some "He"), StreamEvent.stopCall,
         StreamEvent.chunk (some "llo")]
        StreamEnd.success (freshState "s3")).state.messages.map ChatMessage.content) =
      ["hi", "Hello"] ∧
    concatDeltas [StreamEvent.chunk (some "He")] = "He" ∧
    ("Hello" : String) ≠ "He" :=
  ⟨by decide, by decide, by decide⟩

/-- C3 amended: when stop fires mid-stream after the stop-free schedule
pre, the assistant message ends holding the fragments of pre plus at
most one further fragment: the single chunk already in flight when the
signal fired (the loop checks signal.aborted only after handing a chunk
to onText).  All later fragments are neither appended nor reported (the
observer-call count is bounded accordingly), the final observer call
carries busy = false, and the content is a prefix of what full
completion would have produced. -/
theorem stop_midstream_amended (userId assistantId : String) (nowU nowA : Nat)
    (userText : String) (pre post : List StreamEvent) (endKind : StreamEnd)
    (s : ControllerState)
    (hbusy : s.generating = false)
    (htext : jsTrim userText ≠ "")
    (hnostop : StreamEvent.stopCall ∉ pre)
    (hfresh : ∀ m ∈ s.messages, m.id ≠ assistantId)
    (hneq : userId ≠ assistantId) :
    (ChatController.send userId assistantId nowU nowA userText
        (pre ++ StreamEvent.stopCall :: post) endKind s).state.messages =
      s.messages ++ [ChatMessage.mk userId Role.user userText nowU,
        ChatMessage.mk assistantId Role.assistant
          (concatDeltas pre ++ firstChunkText post) nowA] ∧
    (∃ u, concatDeltas (pre ++ StreamEvent.stopCall :: post) =
        (concatDeltas pre ++ firstChunkText post) ++ u) ∧
    (ChatController.send userId assistantId nowU nowA userText
        (pre ++ StreamEvent.stopCall :: post) endKind s).calls.getLast? =
      some ((ChatController.send userId assistantId nowU nowA userText
        (pre ++ StreamEvent.stopCall :: post) endKind s).state.messages, false) ∧
    (ChatController.send userId assistantId nowU nowA userText
        (pre ++ StreamEvent.stopCall :: post) endKind s).calls.length ≤
      nonemptyChunks pre + 3 := by
  unfold ChatController.send
  rw [if_neg htext, if_neg (by simp [hbusy])]
  have h := generateResponse_stop_midstream assistantId nowA pre post endKind
    { s with messages := s.messages ++ [ChatMessage.mk userId Role.user userText nowU] }
    (by
      intro m hm
      rcases List.mem_append.mp hm with hm | hm
      · exact hfresh m hm
      · simp only [List.mem_singleton] at hm
        subst hm
        exact hneq)
    hnostop
  rcases h with ⟨h1, h2⟩
  refine ⟨by simpa [List.append_assoc] using h1, ?_, ?_, h2⟩
  · obtain ⟨u, hu⟩ := concatDeltas_firstChunk_split post
    refine ⟨u, ?_⟩
    rw [concatDeltas_append]
    simp [concatDeltas, hu, String.append_assoc]
  · simp only [ChatController.generateResponse]
    rw [← List.cons_append, List.getLast?_concat]

/-- C3 witness: stop between "He" and "llo" with one further chunk "XX"
scheduled after the in-flight one. -/
theorem stop_midstream_amended_witness :
    (ChatController.send "u1" "a1" 0 1 "hi"
        ([StreamEvent.chunk (some "He")] ++ StreamEvent.stopCall ::
          [StreamEvent.chunk (some "llo"), StreamEvent.chunk (some "XX")])
        StreamEnd.success (freshState "w3")).state.messages =
      (freshState "w3").messages ++ [ChatMessage.mk "u1" Role.user "hi" 0,
        ChatMessage.mk "a1" Role.assistant
          (concatDeltas [StreamEvent.chunk (some "He")] ++
            firstChunkText [StreamEvent.chunk (some "llo"),
              StreamEvent.chunk (some "XX")]) 1] ∧
    (∃ u, concatDeltas ([StreamEvent.chunk (some "He")] ++ StreamEvent.stopCall ::
          [StreamEvent.chunk (some "llo"), StreamEvent.chunk (some "XX")]) =
        (concatDeltas [StreamEvent.chunk (some "He")] ++
          firstChunkText [StreamEvent.chunk (some "llo"),
            StreamEvent.chunk (some "XX")]) ++ u) ∧
    (ChatController.send "u1" "a1" 0 1 "hi"
        ([StreamEvent.chunk (some "He")] ++ StreamEvent.stopCall ::
          [StreamEvent.chunk (some "llo"), StreamEvent.chunk (some "XX")])
        StreamEnd.success (freshState "w3")).calls.getLast? =
      some ((ChatController.send "u1" "a1" 0 1 "hi"
        ([StreamEvent.chunk (some "He")] ++ StreamEvent.stopCall ::
          [StreamEvent.chunk (some "llo"), StreamEvent.chunk (some "XX")])
        StreamEnd.success (freshState "w3")).state.messages, false) ∧
    (ChatController.send "u1" "a1" 0 1 "hi"
        ([StreamEvent.chunk (some "He")] ++ StreamEvent.stopCall ::
          [StreamEvent.chunk (some "llo"), StreamEvent.chunk (some "XX")])
        StreamEnd.success (freshState "w3")).calls.length ≤
      nonemptyChunks [StreamEvent.chunk (some "He")] + 3 :=
  stop_midstream_amended "u1" "a1" 0 1 "hi" [StreamEvent.chunk (some "He")]
    [StreamEvent.chunk (some "llo"), StreamEvent.chunk (some "XX")]
    StreamEnd.success (freshState "w3") rfl (by decide) (by decide)
    (by simp [freshState]) (by decide)

end LocalGemini
